import Mathlib

/-!
Verification development for the checkpoint-to-PLY splat converter
(`examples/ckpt2splat.py`).

The program converts six named numeric arrays (`means`, `opacities`,
`quats`, `scales`, `sh0`, `shN`) into a binary PLY file: an ASCII header
followed by, for each vertex, 62 little-endian IEEE-754 float32 values.

Shallow embedding choices:
* numeric values are rationals (`ℚ`); `struct.pack` with format `<f` is
  modelled by `f32le`, an executable IEEE-754 binary32 encoder
  (round-to-nearest, ties-to-even) producing the 4 little-endian bytes;
* a numpy/torch array is `Arr`: either 1-dimensional (`Arr.one`) or
  2-dimensional row-major (`Arr.two`); 2-dimensional arrays are
  rectangular in numpy, and element access `a[i, j]` is modelled with
  `List.getD` (every access the program performs is in range for the
  shapes the theorems speak about);
* Python exceptions (`KeyError`, the `ValueError`/`RuntimeError` raised
  by a failing `reshape`, and the `AssertionError` of the row-count
  asserts) become the `ProgError` type, and fallible steps return
  `Except ProgError _`.  In the source every validation step runs before
  `open(output_path, 'wb')`, so an error result means no byte of the
  output file is ever written;
* the produced file is a `List Nat` of byte values: the UTF-8/ASCII
  bytes of the header string followed by the packed body.
-/

namespace Ckpt2Splat

/-- Errors of the program: `keyError k` models a Python `KeyError` on
dictionary access, `reshapeError f sz w` the `ValueError`/`RuntimeError`
raised when an array of `sz` elements cannot be reshaped to width `w`,
and `shapeMismatch f actual expected` the `AssertionError` of the
row-count asserts, whose message names the field and prints
`actual vs expected`. -/
inductive ProgError where
  | keyError (key : String)
  | reshapeError (field : String) (size : Nat) (width : Nat)
  | shapeMismatch (field : String) (actual : Nat) (expected : Nat)
  deriving DecidableEq, Repr

/-- Fuel-driven floor of the base-2 logarithm of a natural number
(structural recursion on the fuel, so the kernel can evaluate it). -/
def log2fuel : Nat → Nat → Nat
  | 0, _ => 0
  | fuel + 1, n => if n ≤ 1 then 0 else log2fuel fuel (n / 2) + 1

/-- Floor of the base-2 logarithm of a natural number. -/
def natLog2 (n : Nat) : Nat := log2fuel n n

/-- Whether `b * 2 ^ e ≤ a` for an integer exponent `e`, phrased with
natural-number arithmetic only. -/
def pow2le (b a : Nat) (e : Int) : Bool :=
  if 0 ≤ e then b * 2 ^ e.toNat ≤ a else b ≤ a * 2 ^ (-e).toNat

/-- Floor of the base-2 logarithm of a positive fraction `a / b`. -/
def fracLog2 (a b : Nat) : Int :=
  let e0 : Int := (natLog2 a : Int) - (natLog2 b : Int)
  if pow2le b a e0 then e0 else e0 - 1

/-- Round the fraction `n / d` to the nearest natural number, ties to
even (the IEEE-754 default rounding used by float conversion). -/
def rne (n d : Nat) : Nat :=
  let w := n / d
  let r := n % d
  if 2 * r < d then w
  else if d < 2 * r then w + 1
  else if w % 2 = 0 then w else w + 1

/-- IEEE-754 binary32 bit pattern of a rational value, rounding to
nearest with ties to even: the bit pattern `struct.pack('<f', x)`
serialises.  Handles zero, subnormals, normals, and overflow to
infinity.  All arithmetic is on the numerator `a` and denominator `b`
of the (reduced) rational, so the whole function evaluates inside the
kernel. -/
def f32bits (q : ℚ) : Nat :=
  let a := q.num.natAbs
  let b := q.den
  if a = 0 then 0
  else
    let s : Nat := if q.num < 0 then 1 else 0
    let e : Int := fracLog2 a b
    let e1 : Int := if e < -126 then -126 else e
    let k : Int := 23 - e1
    let m : Nat := rne (a * 2 ^ k.toNat) (b * 2 ^ (-k).toNat)
    let e2 : Int := if m = 2 ^ 24 then e1 + 1 else e1
    let m2 : Nat := if m = 2 ^ 24 then 2 ^ 23 else m
    if 127 < e2 then s * 2 ^ 31 + 255 * 2 ^ 23
    else if m2 < 2 ^ 23 then s * 2 ^ 31 + m2
    else s * 2 ^ 31 + (e2 + 127).toNat * 2 ^ 23 + (m2 - 2 ^ 23)

/-- The 4 bytes of `struct.pack('<f', q)`: the binary32 bit pattern in
little-endian byte order. -/
def f32le (q : ℚ) : List Nat :=
  let b := f32bits q
  [b % 256, b / 256 % 256, b / 65536 % 256, b / 16777216 % 256]

/-- A numpy/torch numeric array as the program sees it: 1-dimensional,
or 2-dimensional stored as its list of rows (row-major). -/
inductive Arr where
  | one (xs : List ℚ)
  | two (rows : List (List ℚ))
  deriving DecidableEq, Repr

/-- `a.ndim`. -/
def Arr.ndim : Arr → Nat
  | .one _ => 1
  | .two _ => 2

/-- `a.shape[0]`: the leading dimension. -/
def Arr.nrows : Arr → Nat
  | .one xs => xs.length
  | .two rows => rows.length

/-- The elements of the array in row-major order (used by `reshape`). -/
def Arr.flatten : Arr → List ℚ
  | .one xs => xs
  | .two rows => rows.flatten

/-- `a.size` / `a.numel()`: the total element count. -/
def Arr.numel (a : Arr) : Nat := a.flatten.length

/-- Split a flat list into `n` rows of `w` elements each
(the result of a successful `reshape` to `(n, w)`). -/
def reshapeRows (xs : List ℚ) (n w : Nat) : List (List ℚ) :=
  (List.range n).map (fun i => (xs.drop (i * w)).take w)

/-- The `if x.ndim == 1: x = x.reshape(-1, w)` normalisation performed by
`convert_checkpoint_to_ply` for each field: a 2-D array is kept as is
(its column count is not inspected), a 1-D array is reshaped to width
`w`, which numpy accepts exactly when `w` divides the flat length and
otherwise rejects with a `ValueError`. -/
def ensure2D (field : String) (a : Arr) (w : Nat) : Except ProgError (List (List ℚ)) :=
  match a with
  | .two rows => .ok rows
  | .one xs =>
    if xs.length % w = 0 then .ok (reshapeRows xs (xs.length / w) w)
    else .error (.reshapeError field xs.length w)

/-- The six arrays `convert_checkpoint_to_ply` extracts from its
`checkpoint_data` dictionary. -/
structure CheckpointData where
  means : Arr
  opacities : Arr
  quats : Arr
  scales : Arr
  sh0 : Arr
  shN : Arr
  deriving DecidableEq, Repr

/-- The six arrays after the `ndim == 1` reshapes, each as a list of
rows. -/
structure Validated where
  means2 : List (List ℚ)
  opacities2 : List (List ℚ)
  quats2 : List (List ℚ)
  scales2 : List (List ℚ)
  sh02 : List (List ℚ)
  shN2 : List (List ℚ)
  deriving DecidableEq, Repr

/-- The five `assert X.shape[0] == num_vertices` checks of
`convert_checkpoint_to_ply`, in source order (opacities, quats, scales,
sh0, shN), where `num_vertices = means.shape[0]` after the reshapes. -/
def checkRows (v : Validated) : Except ProgError Validated :=
  let n := v.means2.length
  if v.opacities2.length ≠ n then .error (.shapeMismatch "opacities" v.opacities2.length n)
  else if v.quats2.length ≠ n then .error (.shapeMismatch "quats" v.quats2.length n)
  else if v.scales2.length ≠ n then .error (.shapeMismatch "scales" v.scales2.length n)
  else if v.sh02.length ≠ n then .error (.shapeMismatch "sh0" v.sh02.length n)
  else if v.shN2.length ≠ n then .error (.shapeMismatch "shN" v.shN2.length n)
  else .ok v

/-- The validation phase of `convert_checkpoint_to_ply`: the six
`ndim == 1` reshapes in source order (means, opacities, quats, scales,
sh0, shN) followed by the five row-count asserts.  Everything here runs
before the output file is opened. -/
def validate (d : CheckpointData) : Except ProgError Validated :=
  match ensure2D "means" d.means 3 with
  | .error e => .error e
  | .ok m =>
  match ensure2D "opacities" d.opacities 1 with
  | .error e => .error e
  | .ok o =>
  match ensure2D "quats" d.quats 4 with
  | .error e => .error e
  | .ok q =>
  match ensure2D "scales" d.scales 3 with
  | .error e => .error e
  | .ok s =>
  match ensure2D "sh0" d.sh0 3 with
  | .error e => .error e
  | .ok h0 =>
  match ensure2D "shN" d.shN 45 with
  | .error e => .error e
  | .ok hN => checkRows ⟨m, o, q, s, h0, hN⟩

/-- The PLY header lines built by `convert_checkpoint_to_ply`,
in order: the fixed prelude, `element vertex N`, the nine leading
property lines, the 45 `f_rest` property lines from the
`for i in range(45)` loop, and the trailing property lines with
`end_header`. -/
def headerLines (n : Nat) : List String :=
  (["ply",
    "format binary_little_endian 1.0",
    "comment Generated by checkpoint converter",
    "comment Vertical Axis: z",
    "element vertex " ++ toString n,
    "property float x",
    "property float y",
    "property float z",
    "property float nx",
    "property float ny",
    "property float nz",
    "property float f_dc_0",
    "property float f_dc_1",
    "property float f_dc_2"]
   ++ (List.range 45).map (fun i => "property float f_rest_" ++ toString i))
  ++ ["property float opacity",
      "property float scale_0",
      "property float scale_1",
      "property float scale_2",
      "property float rot_0",
      "property float rot_1",
      "property float rot_2",
      "property float rot_3",
      "end_header"]

/-- `'\n'.flatten(header) + '\n'`: the header string written to the file. -/
def headerStr (n : Nat) : String :=
  String.intercalate "\n" (headerLines n) ++ "\n"

/-- The bytes of an ASCII string (`.encode('ascii')`): one byte per
character. -/
def strBytes (s : String) : List Nat := s.data.map Char.toNat

/-- Element access `rows[i, j]` on a 2-D array given as rows. -/
def get2 (rows : List (List ℚ)) (i j : Nat) : ℚ := (rows.getD i []).getD j 0

/-- The position write: `struct.pack('<fff', means[i,0], means[i,1], means[i,2])`. -/
def posBytes (v : Validated) (i : Nat) : List Nat :=
  f32le (get2 v.means2 i 0) ++ f32le (get2 v.means2 i 1) ++ f32le (get2 v.means2 i 2)

/-- The normal write: `struct.pack('<fff', 0.0, 0.0, 0.0)`. -/
def normalBytes : List Nat := f32le 0 ++ f32le 0 ++ f32le 0

/-- The base SH write: `struct.pack('<fff', sh0[i,0], sh0[i,1], sh0[i,2])`. -/
def sh0Bytes (v : Validated) (i : Nat) : List Nat :=
  f32le (get2 v.sh02 i 0) ++ f32le (get2 v.sh02 i 1) ++ f32le (get2 v.sh02 i 2)

/-- The higher-order SH writes: `for j in range(45): struct.pack('<f', shN[i,j])`. -/
def shNBytes (v : Validated) (i : Nat) : List Nat :=
  ((List.range 45).map (fun j => f32le (get2 v.shN2 i j))).flatten

/-- The opacity write: `struct.pack('<f', opacities[i,0])`. -/
def opacityBytes (v : Validated) (i : Nat) : List Nat := f32le (get2 v.opacities2 i 0)

/-- The scale write: `struct.pack('<fff', scales[i,0], scales[i,1], scales[i,2])`. -/
def scaleBytes (v : Validated) (i : Nat) : List Nat :=
  f32le (get2 v.scales2 i 0) ++ f32le (get2 v.scales2 i 1) ++ f32le (get2 v.scales2 i 2)

/-- The rotation write: `struct.pack('<ffff', quats[i,0], ..., quats[i,3])`. -/
def rotBytes (v : Validated) (i : Nat) : List Nat :=
  f32le (get2 v.quats2 i 0) ++ f32le (get2 v.quats2 i 1) ++
  f32le (get2 v.quats2 i 2) ++ f32le (get2 v.quats2 i 3)

/-- The bytes written for vertex `i`, in the source's write order:
position, normal, sh0, shN, opacity, scale, rotation. -/
def vertexBytes (v : Validated) (i : Nat) : List Nat :=
  posBytes v i ++ normalBytes ++ sh0Bytes v i ++ shNBytes v i ++
  opacityBytes v i ++ scaleBytes v i ++ rotBytes v i

/-- The binary body: `for i in range(num_vertices)` over the per-vertex
writes. -/
def bodyBytes (v : Validated) : List Nat :=
  ((List.range v.means2.length).map (vertexBytes v)).flatten

/-- `convert_checkpoint_to_ply` as a byte-stream producer: validate,
then emit the header bytes followed by the body bytes.  An error result
models the exception paths, on all of which the output file was never
opened. -/
def convertBytes (d : CheckpointData) : Except ProgError (List Nat) :=
  match validate d with
  | .error e => .error e
  | .ok v => .ok (strBytes (headerStr v.means2.length) ++ bodyBytes v)

/-! ### Basic facts about the packed encodings -/

theorem f32le_length (q : ℚ) : (f32le q).length = 4 := rfl

theorem f32le_zero : f32le 0 = [0, 0, 0, 0] := rfl

theorem normalBytes_replicate : normalBytes = List.replicate 12 0 := rfl

theorem posBytes_length (v : Validated) (i : Nat) : (posBytes v i).length = 12 := rfl

theorem shNBytes_length (v : Validated) (i : Nat) : (shNBytes v i).length = 180 := by
  simp [shNBytes, List.length_flatten, List.map_map, Function.comp_def, f32le_length,
    List.map_const', List.sum_replicate]

theorem vertexBytes_length (v : Validated) (i : Nat) : (vertexBytes v i).length = 248 := by
  simp [vertexBytes, posBytes, normalBytes, sh0Bytes, opacityBytes, scaleBytes, rotBytes,
    f32le_length, shNBytes_length v i]

theorem bodyBytes_length (v : Validated) :
    (bodyBytes v).length = 248 * v.means2.length := by
  simp [bodyBytes, List.length_flatten, List.map_map, Function.comp_def, vertexBytes_length,
    List.map_const', List.sum_replicate, Nat.mul_comm]

theorem reshapeRows_length (xs : List ℚ) (n w : Nat) : (reshapeRows xs n w).length = n := by
  simp [reshapeRows]

/-- Inversion for the five row-count asserts. -/
theorem checkRows_ok_iff (u v : Validated) :
    checkRows u = .ok v ↔
      (v = u ∧ u.opacities2.length = u.means2.length ∧ u.quats2.length = u.means2.length ∧
       u.scales2.length = u.means2.length ∧ u.sh02.length = u.means2.length ∧
       u.shN2.length = u.means2.length) := by
  unfold checkRows
  simp only []
  split_ifs with h1 h2 h3 h4 h5 <;> simp_all
  exact eq_comm

/-- A successful validation forces all five non-means arrays to have
exactly `means2.length` rows. -/
theorem validate_ok_rows (d : CheckpointData) (v : Validated)
    (h : validate d = .ok v) :
    v.opacities2.length = v.means2.length ∧ v.quats2.length = v.means2.length ∧
    v.scales2.length = v.means2.length ∧ v.sh02.length = v.means2.length ∧
    v.shN2.length = v.means2.length := by
  unfold validate at h
  repeat' split at h
  any_goals exact Except.noConfusion h
  rw [checkRows_ok_iff] at h
  obtain ⟨hv, h2, h3, h4, h5, h6⟩ := h
  subst hv
  exact ⟨h2, h3, h4, h5, h6⟩

/-- The one-vertex checkpoint of the spec's concrete scenario (§8.7):
means `[[1,2,3]]`, opacities `[[0.5]]`, quats `[[1,0,0,0]]`, scales
`[[0.1,0.1,0.1]]`, sh0 `[[0.2,0.3,0.4]]`, shN all zeros. -/
def exInput : CheckpointData :=
  ⟨.two [[1, 2, 3]], .two [[mkRat 1 2]], .two [[1, 0, 0, 0]],
   .two [[mkRat 1 10, mkRat 1 10, mkRat 1 10]], .two [[mkRat 1 5, mkRat 3 10, mkRat 2 5]],
   .two [List.replicate 45 0]⟩

/-- The validated form of `exInput`. -/
def exValidated : Validated :=
  ⟨[[1, 2, 3]], [[mkRat 1 2]], [[1, 0, 0, 0]],
   [[mkRat 1 10, mkRat 1 10, mkRat 1 10]], [[mkRat 1 5, mkRat 3 10, mkRat 2 5]],
   [List.replicate 45 0]⟩

theorem validate_exInput : validate exInput = .ok exValidated := rfl

/-! ### C1: byte-size law -/

/-- C1: for every valid SplatSet (an input the validation phase
accepts), the produced file is the ASCII header bytes followed by a body
of exactly `N × 248` bytes, each vertex contributing `62 × 4` bytes, so
the file size equals the header byte length plus `N × 248`. -/
theorem c1_byte_size_law (d : CheckpointData) (v : Validated)
    (h : validate d = .ok v) :
    convertBytes d = .ok (strBytes (headerStr v.means2.length) ++ bodyBytes v) ∧
    (∀ i, (vertexBytes v i).length = 62 * 4) ∧
    (strBytes (headerStr v.means2.length) ++ bodyBytes v).length =
      (strBytes (headerStr v.means2.length)).length + v.means2.length * 248 := by
  refine ⟨by simp [convertBytes, h], fun i => vertexBytes_length v i, ?_⟩
  simp [bodyBytes_length, Nat.mul_comm]

/-- Witness for C1 at the concrete one-vertex input. -/
theorem c1_byte_size_law_witness :
    convertBytes exInput =
      .ok (strBytes (headerStr exValidated.means2.length) ++ bodyBytes exValidated) ∧
    (∀ i, (vertexBytes exValidated i).length = 62 * 4) ∧
    (strBytes (headerStr exValidated.means2.length) ++ bodyBytes exValidated).length =
      (strBytes (headerStr exValidated.means2.length)).length +
        exValidated.means2.length * 248 :=
  c1_byte_size_law exInput exValidated validate_exInput

/-! ### C7: the zero-vertex case -/

/-- The empty SplatSet: six 2-D arrays with zero rows. -/
def emptyInput : CheckpointData :=
  ⟨.two [], .two [], .two [], .two [], .two [], .two []⟩

/-- C7: encoding the zero-vertex SplatSet succeeds, the header contains
the line `element vertex 0`, and the body is empty (the output is the
header bytes alone). -/
theorem c7_zero_vertex :
    convertBytes emptyInput = .ok (strBytes (headerStr 0)) ∧
    "element vertex 0" ∈ headerLines 0 ∧
    bodyBytes ⟨[], [], [], [], [], []⟩ = [] := by
  refine ⟨?_, by decide, rfl⟩
  show Except.ok (strBytes (headerStr 0) ++ bodyBytes ⟨[], [], [], [], [], []⟩) = _
  simp [bodyBytes]

/-! ### C4: row-count mismatch detection -/

/-- C4: (a) validation only succeeds when every array has the same row
count as means, so any row-count mismatch is rejected before a byte is
emitted (an `Except.error` result models the `AssertionError` raised
before the output file is opened); (b) concretely, if quats has
`M ≠ N` rows (opacities being fine, so the quats assert is the one that
fires), the encoder fails with the shape-mismatch error that names
`quats` and carries the actual row count `M` and the expected row count
`N`. -/
theorem c4_shape_mismatch :
    (∀ d v, validate d = .ok v →
      v.opacities2.length = v.means2.length ∧ v.quats2.length = v.means2.length ∧
      v.scales2.length = v.means2.length ∧ v.sh02.length = v.means2.length ∧
      v.shN2.length = v.means2.length) ∧
    (∀ mr orows qr sr h0r hNr : List (List ℚ),
      orows.length = mr.length → qr.length ≠ mr.length →
      convertBytes ⟨.two mr, .two orows, .two qr, .two sr, .two h0r, .two hNr⟩ =
        .error (.shapeMismatch "quats" qr.length mr.length)) := by
  refine ⟨validate_ok_rows, fun mr orows qr sr h0r hNr ho hq => ?_⟩
  simp [convertBytes, validate, ensure2D, checkRows, ho, hq]

/-- Witness for C4: a two-row means with a one-row quats. -/
theorem c4_shape_mismatch_witness :
    convertBytes ⟨.two [[1, 2, 3], [4, 5, 6]], .two [[mkRat 1 2], [mkRat 1 2]],
        .two [[1, 0, 0, 0]], .two [[1, 1, 1], [1, 1, 1]],
        .two [[0, 0, 0], [0, 0, 0]],
        .two [List.replicate 45 0, List.replicate 45 0]⟩ =
      .error (.shapeMismatch "quats" 1 2) := by
  have h := c4_shape_mismatch.2 [[1, 2, 3], [4, 5, 6]] [[mkRat 1 2], [mkRat 1 2]]
    [[1, 0, 0, 0]] [[1, 1, 1], [1, 1, 1]] [[0, 0, 0], [0, 0, 0]]
    [List.replicate 45 0, List.replicate 45 0] (by decide) (by decide)
  simpa using h

/-! ### C5: field widths and the 1-D reshape rule -/

/-- C5: (a) a 1-D array whose flat length is `n × w` is reshaped to
exactly `n` rows of width `w`; (b) conversely a successful 1-D reshape
to width `w` means the flat length was (row count) × `w`; (c) a 1-D
array whose length `w` does not divide is rejected with the reshape
error before any byte is written; (d) a 1-D opacities array of length
`N + 1` passes the width-1 reshape but is then rejected by the
row-count check — still before any byte is written — with the error
naming opacities, actual `N + 1`, expected `N`. -/
theorem c5_reshape_rule :
    (∀ (f : String) (w n : Nat) (xs : List ℚ), w ≠ 0 → xs.length = n * w →
      ensure2D f (.one xs) w = .ok (reshapeRows xs n w) ∧
      (reshapeRows xs n w).length = n ∧
      ∀ r ∈ reshapeRows xs n w, r.length = w) ∧
    (∀ (f : String) (w : Nat) (xs : List ℚ) (rows : List (List ℚ)), w ≠ 0 →
      ensure2D f (.one xs) w = .ok rows → xs.length = rows.length * w) ∧
    (∀ (f : String) (w : Nat) (xs : List ℚ), xs.length % w ≠ 0 →
      ensure2D f (.one xs) w = .error (.reshapeError f xs.length w)) ∧
    (∀ (mr : List (List ℚ)) (ys : List ℚ) (qr sr h0r hNr : List (List ℚ)),
      ys.length = mr.length + 1 →
      convertBytes ⟨.two mr, .one ys, .two qr, .two sr, .two h0r, .two hNr⟩ =
        .error (.shapeMismatch "opacities" (mr.length + 1) mr.length)) := by
  refine ⟨?_, ?_, ?_, ?_⟩
  · intro f w n xs hw hlen
    have hmod : xs.length % w = 0 := by simp [hlen, Nat.mul_mod_left]
    have hdiv : xs.length / w = n := by
      rw [hlen]; exact Nat.mul_div_cancel n (Nat.pos_of_ne_zero hw)
    refine ⟨by simp [ensure2D, hmod, hdiv], reshapeRows_length xs n w, ?_⟩
    intro r hr
    simp only [reshapeRows, List.mem_map, List.mem_range] at hr
    obtain ⟨i, hi, rfl⟩ := hr
    have hle : i * w + w ≤ n * w := by
      have := Nat.mul_le_mul_right w (Nat.succ_le_of_lt hi)
      simpa [Nat.succ_mul] using this
    simp only [List.length_take, List.length_drop, hlen]
    omega
  · intro f w xs rows hw h
    simp only [ensure2D] at h
    split_ifs at h with hmod
    · obtain rfl : reshapeRows xs (xs.length / w) w = rows := by
        simpa using h
      rw [reshapeRows_length]
      exact (Nat.div_mul_cancel (Nat.dvd_of_mod_eq_zero hmod)).symm
  · intro f w xs hmod
    simp [ensure2D, hmod]
  · intro mr ys qr sr h0r hNr hlen
    have h1 : ensure2D "opacities" (.one ys) 1 = .ok (reshapeRows ys ys.length 1) := by
      simp [ensure2D, Nat.mod_one, Nat.div_one]
    simp [convertBytes, validate, ensure2D, checkRows, h1, reshapeRows_length, hlen,
      Nat.mod_one, Nat.div_one]

/-- Witness for C5: a one-row means with a 1-D opacities array of
length 2 (and, for the other parts, a length-6 1-D array of width 3 and
a length-5 1-D array rejected at width 3). -/
theorem c5_reshape_rule_witness :
    (ensure2D "scales" (.one [1, 2, 3, 4, 5, 6]) 3 =
      .ok (reshapeRows [1, 2, 3, 4, 5, 6] 2 3) ∧
     (reshapeRows ([1, 2, 3, 4, 5, 6] : List ℚ) 2 3).length = 2 ∧
     ∀ r ∈ reshapeRows ([1, 2, 3, 4, 5, 6] : List ℚ) 2 3, r.length = 3) ∧
    (ensure2D "scales" (.one [1, 2, 3, 4, 5]) 3 =
      .error (.reshapeError "scales" 5 3)) ∧
    convertBytes ⟨.two [[1, 2, 3]], .one [mkRat 1 2, mkRat 1 2], .two [[1, 0, 0, 0]],
        .two [[1, 1, 1]], .two [[0, 0, 0]], .two [List.replicate 45 0]⟩ =
      .error (.shapeMismatch "opacities" 2 1) := by
  refine ⟨c5_reshape_rule.1 "scales" 3 2 [1, 2, 3, 4, 5, 6] (by decide) (by decide),
    c5_reshape_rule.2.2.1 "scales" 3 [1, 2, 3, 4, 5] (by decide), ?_⟩
  have h := c5_reshape_rule.2.2.2 [[1, 2, 3]] [mkRat 1 2, mkRat 1 2] [[1, 0, 0, 0]]
    [[1, 1, 1]] [[0, 0, 0]] [List.replicate 45 0] (by decide)
  simpa using h

/-! ### C2: concrete one-vertex byte layout -/

/-- The body bytes the encoder produces for `exInput`. -/
def exBody : List Nat := bodyBytes exValidated

set_option maxRecDepth 10000 in
/-- C2: on the spec's concrete one-vertex input the encoder writes the
header followed by exactly 248 body bytes: positions at offsets 0-11,
zero normals at 12-23, sh0 at 24-35, the 45 zero shN coefficients at
36-215, the opacity at 216-219, the scales at 220-231 and the
quaternion at 232-247, each value a little-endian IEEE-754 float32
(the trailing conjuncts pin the actual byte encodings of the values
involved). -/
theorem c2_concrete_layout :
    convertBytes exInput = .ok (strBytes (headerStr 1) ++ exBody) ∧
    exBody.length = 248 ∧
    exBody.take 12 = f32le 1 ++ f32le 2 ++ f32le 3 ∧
    (exBody.drop 12).take 12 = List.replicate 12 0 ∧
    (exBody.drop 24).take 12 =
      f32le (mkRat 1 5) ++ f32le (mkRat 3 10) ++ f32le (mkRat 2 5) ∧
    (exBody.drop 36).take 180 = List.replicate 180 0 ∧
    (exBody.drop 216).take 4 = f32le (mkRat 1 2) ∧
    (exBody.drop 220).take 12 =
      f32le (mkRat 1 10) ++ f32le (mkRat 1 10) ++ f32le (mkRat 1 10) ∧
    exBody.drop 232 = f32le 1 ++ f32le 0 ++ f32le 0 ++ f32le 0 ∧
    f32le 1 = [0, 0, 128, 63] ∧ f32le 2 = [0, 0, 0, 64] ∧
    f32le 3 = [0, 0, 64, 64] ∧ f32le 0 = [0, 0, 0, 0] ∧
    f32le (mkRat 1 2) = [0, 0, 0, 63] ∧
    f32le (mkRat 1 5) = [205, 204, 76, 62] ∧
    f32le (mkRat 3 10) = [154, 153, 153, 62] ∧
    f32le (mkRat 2 5) = [205, 204, 204, 62] ∧
    f32le (mkRat 1 10) = [205, 204, 204, 61] := by
  refine ⟨rfl, ?_, ?_, ?_, ?_, ?_, ?_, ?_, ?_, ?_, ?_, ?_, ?_, ?_, ?_, ?_, ?_, ?_⟩
  all_goals decide

/-! ### C8: normals are always written as zeros -/

/-- Dropping `L * i` bytes from the concatenation of `n` equal-length
blocks lands exactly at the start of block `i`. -/
theorem flatten_map_range_drop (f : Nat → List Nat) (L : Nat)
    (hf : ∀ j, (f j).length = L) (n : Nat) :
    ∀ i, i ≤ n →
      (((List.range n).map f).flatten).drop (L * i) =
        ((List.range' i (n - i)).map f).flatten := by
  intro i
  induction i with
  | zero => intro _; simp [List.range_eq_range']
  | succ i ih =>
    intro h
    have hi : i ≤ n := Nat.le_of_succ_le h
    have hsub : n - i = (n - (i + 1)) + 1 := by omega
    have : L * (i + 1) = L * i + L := by ring
    rw [this, ← List.drop_drop, ih hi, hsub, List.range'_succ, List.map_cons,
      List.flatten_cons, List.drop_left' (hf i)]

/-- Block `i` of the body starts at offset `248 * i`. -/
theorem bodyBytes_drop (v : Validated) (i : Nat) (hi : i < v.means2.length) :
    (bodyBytes v).drop (248 * i) =
      vertexBytes v i ++
        ((List.range' (i + 1) (v.means2.length - (i + 1))).map (vertexBytes v)).flatten := by
  have h := flatten_map_range_drop (vertexBytes v) 248 (vertexBytes_length v)
    v.means2.length i (Nat.le_of_lt hi)
  rw [bodyBytes, h,
    show v.means2.length - i = (v.means2.length - (i + 1)) + 1 by omega,
    List.range'_succ, List.map_cons, List.flatten_cons]

set_option maxRecDepth 10000 in
/-- C8: in the produced file, for every vertex `i`, the 12 bytes at
body offset `248 * i + 12` — the `nx, ny, nz` slots — are all zero,
whatever the input values are: the encoder writes `(0.0, 0.0, 0.0)`
and never computes normals from the geometry. -/
theorem c8_normals_always_zero (d : CheckpointData) (v : Validated)
    (h : validate d = .ok v) (i : Nat) (hi : i < v.means2.length) (bs : List Nat)
    (hb : convertBytes d = .ok bs) :
    (bs.drop ((strBytes (headerStr v.means2.length)).length + (248 * i + 12))).take 12 =
      List.replicate 12 0 := by
  generalize hH : strBytes (headerStr v.means2.length) = H
  have h2 : convertBytes d = .ok (H ++ bodyBytes v) := by
    rw [← hH]
    simp [convertBytes, h]
  rw [h2] at hb
  rw [Except.ok.injEq] at hb
  rw [← hb]
  rw [← List.drop_drop, List.drop_left, ← List.drop_drop, bodyBytes_drop v i hi]
  rw [vertexBytes]
  simp only [List.append_assoc]
  rw [List.drop_left' (posBytes_length v i)]
  have h12 : normalBytes.length = 12 := rfl
  rw [List.take_left' h12]
  exact normalBytes_replicate

/-- Witness for C8 at the concrete one-vertex input. -/
theorem c8_normals_always_zero_witness :
    ((strBytes (headerStr exValidated.means2.length) ++ bodyBytes exValidated).drop
        ((strBytes (headerStr exValidated.means2.length)).length + (248 * 0 + 12))).take 12 =
      List.replicate 12 0 :=
  c8_normals_always_zero exInput exValidated validate_exInput 0 (by decide)
    (strBytes (headerStr exValidated.means2.length) ++ bodyBytes exValidated) rfl

/-! ### C3: header structure and property order -/

/-- A header line that declares a property: it starts with
`property float `. -/
def isPropLine (s : String) : Bool := "property float ".data.isPrefixOf s.data

/-- The property names in the order the spec requires:
x, y, z, nx, ny, nz, f_dc_0..2, f_rest_0..44, opacity, scale_0..2,
rot_0..3. -/
def specPropertyNames : List String :=
  ["x", "y", "z", "nx", "ny", "nz", "f_dc_0", "f_dc_1", "f_dc_2"]
  ++ (List.range 45).map (fun i => "f_rest_" ++ toString i)
  ++ ["opacity", "scale_0", "scale_1", "scale_2", "rot_0", "rot_1", "rot_2", "rot_3"]

/-- The `element vertex N` line is not a property line, whatever `N`
prints as. -/
theorem elemLine_not_propLine (t : String) :
    isPropLine ("element vertex " ++ t) = false := by
  unfold isPropLine
  rw [String.data_append]
  have hp : "property float ".data = 'p' :: "roperty float ".data := rfl
  have he : "element vertex ".data = 'e' :: "lement vertex ".data := rfl
  rw [hp, he, List.cons_append, List.isPrefixOf]
  simp

/-- The header decomposes as the fixed prelude, the `element vertex N`
line, the 62 property lines, and `end_header`. -/
theorem headerLines_decomp (n : Nat) :
    headerLines n =
      ["ply", "format binary_little_endian 1.0",
       "comment Generated by checkpoint converter",
       "comment Vertical Axis: z",
       "element vertex " ++ toString n]
      ++ specPropertyNames.map (fun s => "property float " ++ s)
      ++ ["end_header"] := rfl

/-- The property lines of the header, in order, are exactly the 62
expected ones. -/
theorem headerLines_filter_prop (n : Nat) :
    (headerLines n).filter isPropLine =
      specPropertyNames.map (fun s => "property float " ++ s) := by
  rw [headerLines_decomp]
  rw [List.filter_append, List.filter_append]
  rw [show ["ply", "format binary_little_endian 1.0",
       "comment Generated by checkpoint converter",
       "comment Vertical Axis: z",
       "element vertex " ++ toString n].filter isPropLine = [] from ?_]
  · rw [show (specPropertyNames.map (fun s => "property float " ++ s)).filter isPropLine =
        specPropertyNames.map (fun s => "property float " ++ s) from by decide]
    rw [show ["end_header"].filter isPropLine = [] from by decide]
    simp
  · simp only [List.filter_cons, List.filter_nil]
    rw [elemLine_not_propLine]
    norm_num
    decide

theorem intercalate_go_append (s x : String) (l : List String) :
    ∀ acc : String,
      String.intercalate.go acc s (l ++ [x]) = String.intercalate.go acc s l ++ s ++ x := by
  induction l with
  | nil => intro acc; rfl
  | cons a l2 ih => intro acc; simp only [List.cons_append, String.intercalate.go]; exact ih _

theorem intercalate_cons_last (s x a : String) (l : List String) :
    String.intercalate s (a :: l ++ [x]) = String.intercalate s (a :: l) ++ s ++ x := by
  simp only [String.intercalate, List.cons_append]
  exact intercalate_go_append s x l a

/-- The header string ends with `end_header` followed by a newline. -/
theorem headerStr_end_header (n : Nat) : ∃ t, headerStr n = t ++ "end_header\n" := by
  refine ⟨String.intercalate "\n"
    ("ply" :: (["format binary_little_endian 1.0",
       "comment Generated by checkpoint converter",
       "comment Vertical Axis: z",
       "element vertex " ++ toString n]
      ++ specPropertyNames.map (fun s => "property float " ++ s))) ++ "\n", ?_⟩
  rw [headerStr, headerLines_decomp]
  rw [show (["ply", "format binary_little_endian 1.0",
       "comment Generated by checkpoint converter",
       "comment Vertical Axis: z",
       "element vertex " ++ toString n]
      ++ specPropertyNames.map (fun s => "property float " ++ s)
      ++ ["end_header"] : List String) =
      "ply" :: (["format binary_little_endian 1.0",
       "comment Generated by checkpoint converter",
       "comment Vertical Axis: z",
       "element vertex " ++ toString n]
      ++ specPropertyNames.map (fun s => "property float " ++ s)) ++ ["end_header"] from by
        simp]
  rw [intercalate_cons_last]
  rw [String.append_assoc]
  have hend : ("end_header" : String) ++ "\n" = "end_header\n" := rfl
  rw [hend]

/-- C3: for every `N`, the header's property lines, in order, are
exactly `property float` followed by x, y, z, nx, ny, nz, f_dc_0..2,
f_rest_0..44, opacity, scale_0..2, rot_0..3 — 62 lines whose order
does not depend on `N` (the filtered list is the fixed
`specPropertyNames`) nor on any input value (the header is a function
of the vertex count alone); they are preceded by the `ply` magic, the
format line `binary_little_endian 1.0`, two comment lines and
`element vertex N`, and the header terminates with `end_header`
followed by a newline. -/
theorem c3_header_property_order (n : Nat) :
    (headerLines n).filter isPropLine =
      specPropertyNames.map (fun s => "property float " ++ s) ∧
    ((headerLines n).filter isPropLine).length = 62 ∧
    headerLines n =
      ["ply", "format binary_little_endian 1.0",
       "comment Generated by checkpoint converter",
       "comment Vertical Axis: z",
       "element vertex " ++ toString n]
      ++ specPropertyNames.map (fun s => "property float " ++ s)
      ++ ["end_header"] ∧
    (∃ t, headerStr n = t ++ "end_header\n") := by
  refine ⟨headerLines_filter_prop n, ?_, headerLines_decomp n, headerStr_end_header n⟩
  rw [headerLines_filter_prop n]
  decide

/-! ### C9: determinism / dependence on the six arrays only -/

/-- Lookup in a Python dictionary modelled as an association list
(dict keys are unique; first match wins). -/
def findKey (m : List (String × Arr)) (k : String) : Option Arr :=
  match m with
  | [] => none
  | (k1, v) :: rest => if k1 = k then some v else findKey rest k

/-- `checkpoint_data[k]`: dictionary access, raising `KeyError` when
the key is absent. -/
def getField (m : List (String × Arr)) (k : String) : Except ProgError Arr :=
  match findKey m k with
  | some a => .ok a
  | none => .error (.keyError k)

/-- The `required_keys` list of `main`, in source order. -/
def requiredKeys : List String := ["means", "opacities", "quats", "scales", "sh0", "shN"]

/-- `convert_checkpoint_to_ply` on its dictionary argument: read the
six arrays (lines 40-45 of the source, `KeyError` if one is absent),
then validate and emit the byte stream. -/
def convert_checkpoint_to_ply (m : List (String × Arr)) : Except ProgError (List Nat) :=
  match getField m "means" with
  | .error e => .error e
  | .ok am =>
  match getField m "opacities" with
  | .error e => .error e
  | .ok ao =>
  match getField m "quats" with
  | .error e => .error e
  | .ok aq =>
  match getField m "scales" with
  | .error e => .error e
  | .ok asc =>
  match getField m "sh0" with
  | .error e => .error e
  | .ok ah0 =>
  match getField m "shN" with
  | .error e => .error e
  | .ok ahN => convertBytes ⟨am, ao, aq, asc, ah0, ahN⟩

/-- C9: the encoder is deterministic and reads nothing but the six
named arrays: two input dictionaries that agree on the six required
keys (whatever other entries they hold, in whatever order) produce
identical results, byte for byte. -/
theorem c9_deterministic (m1 m2 : List (String × Arr))
    (h : ∀ k ∈ requiredKeys, findKey m1 k = findKey m2 k) :
    convert_checkpoint_to_ply m1 = convert_checkpoint_to_ply m2 := by
  have hm := h "means" (by decide)
  have ho := h "opacities" (by decide)
  have hq := h "quats" (by decide)
  have hs := h "scales" (by decide)
  have h0 := h "sh0" (by decide)
  have hN := h "shN" (by decide)
  unfold convert_checkpoint_to_ply getField
  rw [hm, ho, hq, hs, h0, hN]

/-- Witness for C9: two dictionaries holding the same six arrays, in
different insertion orders, the second with an extra unrelated entry. -/
theorem c9_deterministic_witness :
    convert_checkpoint_to_ply
      [("means", .two [[1, 2, 3]]), ("opacities", .two [[mkRat 1 2]]),
       ("quats", .two [[1, 0, 0, 0]]), ("scales", .two [[1, 1, 1]]),
       ("sh0", .two [[0, 0, 0]]), ("shN", .two [List.replicate 45 0])] =
    convert_checkpoint_to_ply
      [("extra", .one [7]), ("shN", .two [List.replicate 45 0]),
       ("sh0", .two [[0, 0, 0]]), ("scales", .two [[1, 1, 1]]),
       ("quats", .two [[1, 0, 0, 0]]), ("opacities", .two [[mkRat 1 2]]),
       ("means", .two [[1, 2, 3]])] :=
  c9_deterministic _ _ (by decide)

/-! ### C10: extra columns of 2-D inputs pass validation and are ignored -/

theorem getD_take_eq (l : List ℚ) (w j : Nat) (hj : j < w) :
    (l.take w).getD j 0 = l.getD j 0 := by
  rw [List.getD_eq_getElem?_getD, List.getD_eq_getElem?_getD, List.getElem?_take_of_lt hj]

theorem getD_map_take (rows : List (List ℚ)) (w i : Nat) :
    (rows.map (fun r => r.take w)).getD i [] = (rows.getD i []).take w := by
  rw [List.getD_eq_getElem?_getD, List.getD_eq_getElem?_getD, List.getElem?_map]
  cases rows[i]? <;> simp

theorem get2_map_take (rows : List (List ℚ)) (w i j : Nat) (hj : j < w) :
    get2 (rows.map (fun r => r.take w)) i j = get2 rows i j := by
  rw [get2, get2, getD_map_take, getD_take_eq _ _ _ hj]

/-- The six arrays with each row truncated to its canonical width. -/
def truncV (v : Validated) : Validated :=
  ⟨v.means2.map (fun r => r.take 3), v.opacities2.map (fun r => r.take 1),
   v.quats2.map (fun r => r.take 4), v.scales2.map (fun r => r.take 3),
   v.sh02.map (fun r => r.take 3), v.shN2.map (fun r => r.take 45)⟩

/-- The bytes of a vertex only read the first canonical-width columns
of each row. -/
theorem vertexBytes_trunc (v : Validated) (i : Nat) :
    vertexBytes (truncV v) i = vertexBytes v i := by
  unfold vertexBytes posBytes sh0Bytes shNBytes opacityBytes scaleBytes rotBytes truncV
  simp only []
  rw [get2_map_take v.means2 3 i 0 (by norm_num),
    get2_map_take v.means2 3 i 1 (by norm_num),
    get2_map_take v.means2 3 i 2 (by norm_num),
    get2_map_take v.opacities2 1 i 0 (by norm_num),
    get2_map_take v.quats2 4 i 0 (by norm_num),
    get2_map_take v.quats2 4 i 1 (by norm_num),
    get2_map_take v.quats2 4 i 2 (by norm_num),
    get2_map_take v.quats2 4 i 3 (by norm_num),
    get2_map_take v.scales2 3 i 0 (by norm_num),
    get2_map_take v.scales2 3 i 1 (by norm_num),
    get2_map_take v.scales2 3 i 2 (by norm_num),
    get2_map_take v.sh02 3 i 0 (by norm_num),
    get2_map_take v.sh02 3 i 1 (by norm_num),
    get2_map_take v.sh02 3 i 2 (by norm_num)]
  have hsh : ((List.range 45).map
      (fun j => f32le (get2 (v.shN2.map (fun r => r.take 45)) i j))).flatten =
      ((List.range 45).map (fun j => f32le (get2 v.shN2 i j))).flatten := by
    congr 1
    apply List.map_congr_left
    intro j hj
    rw [get2_map_take _ _ _ _ (List.mem_range.mp hj)]
  rw [hsh]

theorem bodyBytes_trunc (v : Validated) : bodyBytes (truncV v) = bodyBytes v := by
  unfold bodyBytes
  have hlen : (truncV v).means2.length = v.means2.length := by
    simp [truncV]
  rw [hlen]
  congr 1
  apply List.map_congr_left
  intro i _
  exact vertexBytes_trunc v i

/-- C10: for 2-D inputs only the leading dimension is validated, so
arrays with more columns than their canonical width (e.g. a means of
shape `(N, 5)`) are accepted, and the encoder emits exactly the bytes
it would emit for the inputs truncated to their canonical widths: the
extra columns are silently ignored. -/
theorem c10_extra_columns_ignored (mr o2 qr sr h0r hNr : List (List ℚ))
    (ho : o2.length = mr.length) (hq : qr.length = mr.length)
    (hs : sr.length = mr.length) (hh : h0r.length = mr.length)
    (hn : hNr.length = mr.length) :
    ∃ bs,
      convertBytes ⟨.two mr, .two o2, .two qr, .two sr, .two h0r, .two hNr⟩ = .ok bs ∧
      convertBytes ⟨.two (mr.map (fun r => r.take 3)), .two (o2.map (fun r => r.take 1)),
        .two (qr.map (fun r => r.take 4)), .two (sr.map (fun r => r.take 3)),
        .two (h0r.map (fun r => r.take 3)), .two (hNr.map (fun r => r.take 45))⟩ = .ok bs := by
  refine ⟨strBytes (headerStr mr.length) ++ bodyBytes ⟨mr, o2, qr, sr, h0r, hNr⟩, ?_, ?_⟩
  · simp [convertBytes, validate, ensure2D, checkRows, ho, hq, hs, hh, hn]
  · have h1 : convertBytes ⟨.two (mr.map (fun r => r.take 3)), .two (o2.map (fun r => r.take 1)),
        .two (qr.map (fun r => r.take 4)), .two (sr.map (fun r => r.take 3)),
        .two (h0r.map (fun r => r.take 3)), .two (hNr.map (fun r => r.take 45))⟩ =
        .ok (strBytes (headerStr (mr.map (fun r => r.take 3)).length) ++
          bodyBytes (truncV ⟨mr, o2, qr, sr, h0r, hNr⟩)) := by
      simp [convertBytes, validate, ensure2D, checkRows, truncV, List.length_map,
        ho, hq, hs, hh, hn]
    rw [h1, bodyBytes_trunc, List.length_map]

/-- Witness for C10: a one-vertex means of shape `(1, 5)`. -/
theorem c10_extra_columns_ignored_witness :
    ∃ bs,
      convertBytes ⟨.two [[1, 2, 3, 4, 5]], .two [[mkRat 1 2]], .two [[1, 0, 0, 0]],
        .two [[1, 1, 1]], .two [[0, 0, 0]], .two [List.replicate 45 0]⟩ = .ok bs ∧
      convertBytes ⟨.two ([[1, 2, 3, 4, 5]].map (fun r => r.take 3)),
        .two ([[mkRat 1 2]].map (fun r => r.take 1)),
        .two ([[1, 0, 0, 0]].map (fun r => r.take 4)),
        .two ([[1, 1, 1]].map (fun r => r.take 3)),
        .two ([[0, 0, 0]].map (fun r => r.take 3)),
        .two ([List.replicate 45 0].map (fun r => r.take 45))⟩ = .ok bs :=
  c10_extra_columns_ignored [[1, 2, 3, 4, 5]] [[mkRat 1 2]] [[1, 0, 0, 0]]
    [[1, 1, 1]] [[0, 0, 0]] [List.replicate 45 0] rfl rfl rfl rfl rfl

/-! ### C6: behaviour of `main` when required arrays are missing -/

/-- Python dictionary assignment `m[k] = v`: replace the binding when
the key exists, append it otherwise. -/
def setKey (m : List (String × Arr)) (k : String) (v : Arr) : List (String × Arr) :=
  if (findKey m k).isSome then m.map (fun p => if p.1 = k then (k, v) else p)
  else m ++ [(k, v)]

/-- `x.reshape(n, w)` on a torch tensor: succeeds exactly when the
element count is `n * w`, raising a shape error otherwise. -/
def torchReshape (field : String) (a : Arr) (n w : Nat) : Except ProgError Arr :=
  if a.numel = n * w then .ok (.two (reshapeRows a.flatten n w))
  else .error (.reshapeError field a.numel w)

/-- `extract_data_from_ckpt` on the `splats` dictionary (checkpoint
loading itself is an external collaborator): read `means`, set
`N = means.shape[0]`, then reassign `opacities`, `sh0` and `shN` with
their reshapes to `(N,1)`, `(N,3)` and `(N,45)`.  Each dictionary read
raises `KeyError` when the key is absent, each reshape can raise a
shape error, and `quats`/`scales` are never touched. -/
def extract_data_from_ckpt (splats : List (String × Arr)) :
    Except ProgError (List (String × Arr)) :=
  match findKey splats "means" with
  | none => .error (.keyError "means")
  | some am =>
    match findKey splats "opacities" with
    | none => .error (.keyError "opacities")
    | some ao =>
      match torchReshape "opacities" ao am.nrows 1 with
      | .error e => .error e
      | .ok ao2 =>
        match findKey (setKey splats "opacities" ao2) "sh0" with
        | none => .error (.keyError "sh0")
        | some ah =>
          match torchReshape "sh0" ah am.nrows 3 with
          | .error e => .error e
          | .ok ah2 =>
            match findKey (setKey (setKey splats "opacities" ao2) "sh0" ah2) "shN" with
            | none => .error (.keyError "shN")
            | some an =>
              match torchReshape "shN" an am.nrows 45 with
              | .error e => .error e
              | .ok an2 =>
                .ok (setKey (setKey (setKey splats "opacities" ao2) "sh0" ah2) "shN" an2)

/-- What an invocation of the program can end as: an uncaught exception
(no output file), the missing-keys warning of `main` followed by
`return` (no output file), or a written file. -/
inductive MainOutcome where
  | fatal (e : ProgError)
  | missingReport (keys : List String)
  | wrote (bytes : List Nat)
  deriving DecidableEq, Repr

/-- `main`: extract the splat data, check the required keys, and
convert.  The missing-keys branch prints the missing keys and returns
before any file is opened. -/
def main (splats : List (String × Arr)) : MainOutcome :=
  match extract_data_from_ckpt splats with
  | .error e => .fatal e
  | .ok data =>
    if (requiredKeys.filter (fun k => (findKey data k).isNone)).isEmpty then
      match convert_checkpoint_to_ply data with
      | .error e => .fatal e
      | .ok bs => .wrote bs
    else .missingReport (requiredKeys.filter (fun k => (findKey data k).isNone))

/-! #### Dictionary lemmas for `setKey` -/

theorem findKey_append_pair_of_none (m : List (String × Arr)) (k : String) (v : Arr)
    (h : findKey m k = none) : findKey (m ++ [(k, v)]) k = some v := by
  induction m with
  | nil => simp [findKey]
  | cons p rest ih =>
    rw [List.cons_append, findKey]
    rw [findKey] at h
    split at h
    · exact Option.noConfusion h
    · rw [if_neg (by assumption)]
      exact ih h

theorem findKey_map_replace_of_some (m : List (String × Arr)) (k : String) (v : Arr)
    (h : (findKey m k).isSome) :
    findKey (m.map (fun p => if p.1 = k then (k, v) else p)) k = some v := by
  induction m with
  | nil => simp [findKey] at h
  | cons p rest ih =>
    rw [List.map_cons, findKey]
    rw [findKey] at h
    by_cases hpk : p.1 = k
    · rw [if_pos hpk]
      simp
    · rw [if_neg hpk] at h
      rw [if_neg hpk, if_neg hpk]
      exact ih h

theorem findKey_setKey_self (m : List (String × Arr)) (k : String) (v : Arr) :
    findKey (setKey m k v) k = some v := by
  unfold setKey
  split
  · exact findKey_map_replace_of_some m k v (by assumption)
  · exact findKey_append_pair_of_none m k v (Option.not_isSome_iff_eq_none.mp (by assumption))

theorem findKey_map_replace_other (m : List (String × Arr)) (k k2 : String) (v : Arr)
    (h : k2 ≠ k) :
    findKey (m.map (fun p => if p.1 = k then (k, v) else p)) k2 = findKey m k2 := by
  induction m with
  | nil => rfl
  | cons p rest ih =>
    rw [List.map_cons, findKey, findKey]
    by_cases hpk : p.1 = k
    · rw [if_pos hpk]
      have hkk2 : ¬(k = k2) := fun hc => h hc.symm
      rw [show ((k, v) : String × Arr).1 = k from rfl]
      rw [if_neg hkk2, if_neg (hpk ▸ hkk2 : ¬(p.1 = k2))]
      exact ih
    · rw [if_neg hpk]
      by_cases hp2 : p.1 = k2
      · rw [if_pos hp2, if_pos hp2]
      · rw [if_neg hp2, if_neg hp2]
        exact ih

theorem findKey_append_pair_other (m : List (String × Arr)) (k k2 : String) (v : Arr)
    (h : k2 ≠ k) : findKey (m ++ [(k, v)]) k2 = findKey m k2 := by
  induction m with
  | nil =>
    rw [List.nil_append, findKey, findKey]
    rw [if_neg (fun hc => h hc.symm)]
    rfl
  | cons p rest ih =>
    rw [List.cons_append, findKey, findKey]
    by_cases hp2 : p.1 = k2
    · rw [if_pos hp2, if_pos hp2]
    · rw [if_neg hp2, if_neg hp2]
      exact ih

theorem findKey_setKey_other (m : List (String × Arr)) (k k2 : String) (v : Arr)
    (h : k2 ≠ k) : findKey (setKey m k v) k2 = findKey m k2 := by
  unfold setKey
  split
  · exact findKey_map_replace_other m k k2 v h
  · exact findKey_append_pair_other m k k2 v h

theorem extract_ok_spec (m data : List (String × Arr))
    (h : extract_data_from_ckpt m = .ok data) :
    (findKey m "means").isSome ∧ (findKey m "opacities").isSome ∧
    (findKey m "sh0").isSome ∧ (findKey m "shN").isSome ∧
    (findKey data "means").isSome ∧ (findKey data "opacities").isSome ∧
    (findKey data "sh0").isSome ∧ (findKey data "shN").isSome ∧
    findKey data "quats" = findKey m "quats" ∧
    findKey data "scales" = findKey m "scales" := by
  unfold extract_data_from_ckpt at h
  repeat' split at h
  any_goals exact Except.noConfusion h
  rw [Except.ok.injEq] at h
  subst h
  rename_i xm vm hkm xo vo hko xr1 vr1 hr1 xs vs hks xr2 vr2 hr2 xn vn hkn xr3 vr3 hr3
  refine ⟨by rw [hkm]; rfl, by rw [hko]; rfl, ?_, ?_, ?_, ?_, ?_, ?_, ?_, ?_⟩
  · rw [findKey_setKey_other _ _ _ _ (by decide)] at hks
    rw [hks]; rfl
  · rw [findKey_setKey_other _ _ _ _ (by decide),
      findKey_setKey_other _ _ _ _ (by decide)] at hkn
    rw [hkn]; rfl
  · rw [findKey_setKey_other _ _ _ _ (by decide),
      findKey_setKey_other _ _ _ _ (by decide),
      findKey_setKey_other _ _ _ _ (by decide), hkm]
    rfl
  · rw [findKey_setKey_other _ _ _ _ (by decide),
      findKey_setKey_other _ _ _ _ (by decide),
      findKey_setKey_self]
    rfl
  · rw [findKey_setKey_other _ _ _ _ (by decide), findKey_setKey_self]
    rfl
  · rw [findKey_setKey_self]
    rfl
  · rw [findKey_setKey_other _ _ _ _ (by decide),
      findKey_setKey_other _ _ _ _ (by decide),
      findKey_setKey_other _ _ _ _ (by decide)]
  · rw [findKey_setKey_other _ _ _ _ (by decide),
      findKey_setKey_other _ _ _ _ (by decide),
      findKey_setKey_other _ _ _ _ (by decide)]


/-- A mapping missing both `means` and `quats` (all other arrays valid). -/
def cex6 : List (String × Arr) :=
  [("opacities", .two [[mkRat 1 2]]), ("scales", .two [[1, 1, 1]]),
   ("sh0", .two [[0, 0, 0]]), ("shN", .two [List.replicate 45 0])]

/-- C6 counterexample: on an input missing both `means` and `quats`,
the program does not run the presence check and does not report the
missing keys by name — it dies first with the `KeyError` that
`extract_data_from_ckpt` raises on `splats['means']`, so the claim that
the presence check fires first and reports the missing keys is false
(the program does still terminate without writing an output file). -/
theorem c6_counterexample :
    Ckpt2Splat.main cex6 = .fatal (.keyError "means") ∧
    Ckpt2Splat.main cex6 ≠ .missingReport ["means", "quats"] := by
  constructor
  · rfl
  · decide

/-- C6 amended: if any of the six required arrays is absent the program
terminates without writing an output file; but the missing-keys report
runs only after extraction, which itself dereferences `means`,
`opacities`, `sh0` and `shN` — so (a) a missing required key always
prevents a file from being written, (b) when extraction succeeds and
keys are missing, the presence check reports exactly the missing keys,
which are then necessarily among `quats` and `scales`, and (c) when
`means` is absent the program instead fails with `KeyError "means"`
before the presence check. -/
theorem c6_missing_fields_amended :
    (∀ (m : List (String × Arr)) (k : String), k ∈ requiredKeys → findKey m k = none →
      ∀ bs, Ckpt2Splat.main m ≠ .wrote bs) ∧
    (∀ m data, extract_data_from_ckpt m = .ok data →
      requiredKeys.filter (fun k => (findKey data k).isNone) ≠ [] →
      Ckpt2Splat.main m =
        .missingReport (requiredKeys.filter (fun k => (findKey data k).isNone)) ∧
      ∀ k ∈ requiredKeys.filter (fun k => (findKey data k).isNone),
        k = "quats" ∨ k = "scales") ∧
    (∀ m, findKey m "means" = none → Ckpt2Splat.main m = .fatal (.keyError "means")) := by
  refine ⟨?_, ?_, ?_⟩
  · intro m k hk hnone bs hwrote
    unfold main at hwrote
    split at hwrote
    · exact MainOutcome.noConfusion hwrote
    · rename_i data hext
      split at hwrote
      · rename_i hemp
        have hall : ∀ x ∈ requiredKeys, ¬((findKey data x).isNone = true) := by
          rw [List.isEmpty_iff] at hemp
          intro x hx hpx
          have hmem : x ∈ requiredKeys.filter (fun k2 => (findKey data k2).isNone) :=
            List.mem_filter.mpr ⟨hx, hpx⟩
          rw [hemp] at hmem
          exact absurd hmem (List.not_mem_nil x)
        obtain ⟨hm1, ho1, hs1, hn1, _, _, _, _, hq, hsc⟩ := extract_ok_spec m data hext
        simp only [requiredKeys, List.mem_cons, List.not_mem_nil, or_false] at hk
        rcases hk with rfl | rfl | rfl | rfl | rfl | rfl
        · rw [hnone] at hm1; exact Bool.noConfusion hm1
        · rw [hnone] at ho1; exact Bool.noConfusion ho1
        · exact (hall "quats" (by decide)) (by rw [hq, hnone]; rfl)
        · exact (hall "scales" (by decide)) (by rw [hsc, hnone]; rfl)
        · rw [hnone] at hs1; exact Bool.noConfusion hs1
        · rw [hnone] at hn1; exact Bool.noConfusion hn1
      · exact MainOutcome.noConfusion hwrote
  · intro m data hext hne
    have hempty : (requiredKeys.filter (fun k => (findKey data k).isNone)).isEmpty = false := by
      cases hfm : requiredKeys.filter (fun k => (findKey data k).isNone) with
      | nil => exact absurd hfm hne
      | cons a t => rfl
    constructor
    · unfold main
      rw [hext]
      simp only [hempty]
      rfl
    · intro k hkf
      have hk12 := List.mem_filter.mp hkf
      obtain ⟨_, _, _, _, hdm, hdo, hds, hdn, _, _⟩ := extract_ok_spec m data hext
      have hk1 := hk12.1
      have hk2 := hk12.2
      simp only [requiredKeys, List.mem_cons, List.not_mem_nil, or_false] at hk1
      rcases hk1 with rfl | rfl | rfl | rfl | rfl | rfl
      · rw [Option.isNone_iff_eq_none] at hk2; rw [hk2] at hdm; exact Bool.noConfusion hdm
      · rw [Option.isNone_iff_eq_none] at hk2; rw [hk2] at hdo; exact Bool.noConfusion hdo
      · exact Or.inl rfl
      · exact Or.inr rfl
      · rw [Option.isNone_iff_eq_none] at hk2; rw [hk2] at hds; exact Bool.noConfusion hds
      · rw [Option.isNone_iff_eq_none] at hk2; rw [hk2] at hdn; exact Bool.noConfusion hdn
  · intro m hm
    unfold main extract_data_from_ckpt
    rw [hm]


/-- Witness input for the amended C6: a mapping holding valid means,
opacities, sh0 and shN but neither quats nor scales.  Extraction maps
it to itself (the reshapes are identities here), and the presence check
then reports exactly quats and scales. -/
def m6w : List (String × Arr) :=
  [("means", .two [[1, 2, 3]]), ("opacities", .two [[mkRat 1 2]]),
   ("sh0", .two [[0, 0, 0]]), ("shN", .two [List.replicate 45 0])]

/-- Witness for the amended C6 at `m6w`. -/
theorem c6_missing_fields_amended_witness :
    Ckpt2Splat.main m6w =
      .missingReport (requiredKeys.filter (fun k => (findKey m6w k).isNone)) ∧
    ∀ k ∈ requiredKeys.filter (fun k => (findKey m6w k).isNone),
      k = "quats" ∨ k = "scales" :=
  c6_missing_fields_amended.2.1 m6w m6w rfl (by decide)

end Ckpt2Splat
